import Mathlib

/-!
# Task assignment heuristic and task-creation route of `server.js`

A shallow embedding of `aiAssignTask` (server.js lines 180-210) and of the
`POST /api/tasks` handler (lines 141-161), together with the Task schema of
`models/Task.js`.

Conventions of the embedding.

* A rejected promise or a thrown exception is `Except.error`; a fulfilled
  promise is `Except.ok`.
* The two database reads `User.find` and `Task.find` read an explicit `Db`
  value.
* Scores are JavaScript numbers that only ever hold small integers
  (`0`, `+10`, `+5`, `5 - length`), so they are modelled by `Int` exactly.
* `String.prototype.toLowerCase` is a parameter `toLowerCase` of every
  definition that uses it: every theorem holds for every lower-casing
  function. `asciiLower` instantiates it on concrete inputs.
* The value of `Math.random()` is a binary64 number `mantissa * 2 ^ exponent`
  with `mantissa < 2 ^ 53`; its product with 20 is rounded to nearest, ties to
  even, as binary64 multiplication does.
* Request fields and document fields that the code only copies or compares
  with `===` are strings; an absent `assigneeId` is `none`.
-/

namespace ProjectFlow

/-- A MongoDB ObjectId; only equality (`ObjectId.prototype.equals`) is used. -/
abbrev ObjectId := String

/-- Exceptions the modelled code can raise: a `TypeError` from reading a
property of `undefined`, or whatever the persistence layer rejects with. -/
inductive JSError where
  | TypeError (message : String)
  | ValidationError (message : String)
  deriving DecidableEq, Repr

/-- A user document, as far as `server.js` reads it (`models/User.js` is
required by the server; the fields are the ones the server writes in the
register route and reads in `aiAssignTask`). -/
structure User where
  _id : ObjectId
  role : String
  skills : List String
  deriving DecidableEq, Repr

/-- A task document, following `taskSchema` in `models/Task.js`:
`assigneeId` is not `required`, hence optional; `status` has a default and is
always present. -/
structure Task where
  title : String
  projectId : ObjectId
  assigneeId : Option ObjectId
  status : String
  priority : String
  dueDate : String
  estimatedHours : Int
  completedHours : Int
  deriving DecidableEq, Repr

/-- The two collections the server reads. -/
structure Db where
  users : List User
  tasks : List Task
  deriving DecidableEq, Repr

/-- The object `{ userId: user._id, score }` returned by the scoring callback. -/
structure UserScore where
  userId : ObjectId
  score : Int
  deriving DecidableEq, Repr

/-- Substring test on character lists: does `t` occur in `s` as a contiguous
block? -/
def includesChars : List Char → List Char → Bool
  | [], t => t.isEmpty
  | c :: s, t => t.isPrefixOf (c :: s) || includesChars s t

/-- The method `String.prototype.includes`: `includes s t` is `s.includes(t)`. -/
def includes (s t : String) : Bool :=
  includesChars s.data t.data

/-- Lower-casing of the ASCII letters, an instance of `toLowerCase` for
concrete inputs. -/
def asciiLower (s : String) : String :=
  ⟨s.data.map Char.toLower⟩

/-- The query `User.find({ role })`. -/
def User.find (db : Db) (role : String) : List User :=
  db.users.filter (fun u => u.role == role)

/-- The query `Task.find()`. -/
def Task.find (db : Db) : List Task :=
  db.tasks

/-- The skills loop of lines 190-195: `score += 10` for every skill whose
lower-cased form is included in the lower-cased title. -/
def skillsForEach (toLowerCase : String → String) (title : String)
    (skills : List String) (score : Int) : Int :=
  let taskKeywords := toLowerCase title
  skills.foldl
    (fun score skill => if includes taskKeywords (toLowerCase skill) then score + 10 else score)
    score

/-- The predicate of the filter on line 198,
`t.assigneeId.equals(user._id) && t.status !== 'completed'`. Reading `.equals`
of an absent `assigneeId` throws before anything else is evaluated. -/
def isOpenTaskOf (user : User) (t : Task) : Except JSError Bool :=
  match t.assigneeId with
  | none => Except.error
      (JSError.TypeError "Cannot read properties of undefined (reading 'equals')")
  | some assigneeId => Except.ok (assigneeId == user._id && t.status != "completed")

/-- An `Array.prototype.filter` whose predicate may throw: the first exception
aborts the whole filter. -/
def filterThrowing {α : Type} (p : α → Except JSError Bool) :
    List α → Except JSError (List α)
  | [] => Except.ok []
  | a :: as =>
    match p a with
    | Except.error e => Except.error e
    | Except.ok keep =>
      match filterThrowing p as with
      | Except.error e => Except.error e
      | Except.ok rest => Except.ok (if keep then a :: rest else rest)

/-- The array `userTasks` of line 198. -/
def userTasks (tasks : List Task) (user : User) : Except JSError (List Task) :=
  filterThrowing (isOpenTaskOf user) tasks

/-- The workload term of line 199, `Math.max(0, 5 - userTasks.length)`. -/
def workloadTerm (userTasks : List Task) : Int :=
  max 0 (5 - (userTasks.length : Int))

/-- The callback of `users.map` (lines 186-205): the score of one user. -/
def userScore (toLowerCase : String → String) (title priority : String)
    (tasks : List Task) (user : User) : Except JSError UserScore :=
  let score : Int := 0
  let score := skillsForEach toLowerCase title user.skills score
  match userTasks tasks user with
  | Except.error e => Except.error e
  | Except.ok userTasks =>
    let score := score + workloadTerm userTasks
    let score := if priority = "high" then score + 5 else score
    Except.ok { userId := user._id, score := score }

/-- The mapping `Promise.all(users.map(...))`: the scores in the order of the
users, or the first rejection. -/
def userScores (toLowerCase : String → String) (title priority : String)
    (tasks : List Task) : List User → Except JSError (List UserScore)
  | [] => Except.ok []
  | user :: users =>
    match userScore toLowerCase title priority tasks user with
    | Except.error e => Except.error e
    | Except.ok s =>
      match userScores toLowerCase title priority tasks users with
      | Except.error e => Except.error e
      | Except.ok rest => Except.ok (s :: rest)

/-- The comparator `(a, b) => b.score - a.score` of line 208. -/
def compareFn (a b : UserScore) : Int :=
  b.score - a.score

/-- Insertion of `x` in front of an already sorted list: `x` moves past `y`
only when the comparator says `x` belongs after `y` (`cmp x y > 0`). -/
def insertSorted (cmp : UserScore → UserScore → Int) (x : UserScore) :
    List UserScore → List UserScore
  | [] => [x]
  | y :: ys => if cmp x y ≤ 0 then x :: y :: ys else y :: insertSorted cmp x ys

/-- The method `Array.prototype.sort(cmp)` as a stable insertion sort (the
language requires the sort to be stable; equal elements keep their input
order). -/
def sort (cmp : UserScore → UserScore → Int) : List UserScore → List UserScore
  | [] => []
  | x :: xs => insertSorted cmp x (sort cmp xs)

/-- The function `aiAssignTask(title, priority, projectId)` of lines 180-210.
The final `userScores[0].userId` throws a `TypeError` when the sorted array is
empty. -/
def aiAssignTask (toLowerCase : String → String) (db : Db)
    (title priority : String) (_projectId : ObjectId) : Except JSError ObjectId :=
  let users := User.find db "member"
  let tasks := Task.find db
  match userScores toLowerCase title priority tasks users with
  | Except.error e => Except.error e
  | Except.ok userScores =>
    match sort compareFn userScores with
    | [] => Except.error
        (JSError.TypeError "Cannot read properties of undefined (reading 'userId')")
    | first :: _ => Except.ok first.userId

/-- Is `t` an open task of `user`: assigned to the user and not completed. -/
def openFor (user : User) (t : Task) : Bool :=
  t.assigneeId == some user._id && t.status != "completed"

/-- The score in the words of the specification: ten per matching skill tag,
plus `max(0, 5 - open tasks)`, plus five when the priority is exactly
`"high"`. -/
def specScore (toLowerCase : String → String) (title priority : String)
    (tasks : List Task) (u : User) : Int :=
  10 * (((u.skills.filter
      (fun tag => includes (toLowerCase title) (toLowerCase tag))).length : Nat) : Int)
    + max 0 (5 - (((tasks.filter (openFor u)).length : Nat) : Int))
    + (if priority = "high" then 5 else 0)

/-- Every task of the collection has an assignee. -/
def allAssigned (tasks : List Task) : Prop :=
  ∀ t ∈ tasks, t.assigneeId.isSome = true

instance (tasks : List Task) : Decidable (allAssigned tasks) := by
  unfold allAssigned; infer_instance

/-! ### The task-creation route -/

/-- A finite non-negative binary64 number, `mantissa * 2 ^ exponent`; a double
has `mantissa < 2 ^ 53`. -/
structure Double where
  mantissa : Nat
  exponent : Int
  deriving DecidableEq, Repr

/-- The rational a double denotes. -/
def Double.toRat (d : Double) : ℚ :=
  (d.mantissa : ℚ) * (2 : ℚ) ^ d.exponent

/-- The quotient `n / 2 ^ k` rounded to the nearest integer, ties to even: the
rounding of binary64 arithmetic when `k` low bits are dropped. -/
def roundNearestEven (n k : Nat) : Nat :=
  let q := n / 2 ^ k
  let r := n % 2 ^ k
  if 2 * r < 2 ^ k then q
  else if 2 ^ k < 2 * r then q + 1
  else if q % 2 = 0 then q else q + 1

/-- The number of binary digits of `n`, counted with `fuel` halvings. -/
def bitLengthAux : Nat → Nat → Nat
  | 0, _ => 0
  | fuel + 1, n => if n = 0 then 0 else bitLengthAux fuel (n / 2) + 1

/-- The number of binary digits of `n` (`0` for `0`). -/
def bitLength (n : Nat) : Nat :=
  bitLengthAux n n

/-- The product `d * 20` of binary64 arithmetic: the exact product
`(mantissa * 20) * 2 ^ exponent` rounded to 53 significant bits, that is with
its `k` low bits dropped when it has `53 + k` bits. (No overflow can occur for
the factors below one this is used at.) -/
def Double.mul20 (d : Double) : Double :=
  let n := d.mantissa * 20
  let k := bitLength n - 53
  { mantissa := roundNearestEven n k, exponent := d.exponent + (k : Int) }

/-- The function `Math.floor` on a non-negative double, as an integer. -/
def Math.floor (d : Double) : Int :=
  if 0 ≤ d.exponent then ((d.mantissa * 2 ^ d.exponent.toNat : Nat) : Int)
  else ((d.mantissa / 2 ^ (-d.exponent).toNat : Nat) : Int)

/-- The fields of `req.body` the handler of `POST /api/tasks` reads;
`assigneeId` may be absent. -/
structure TaskBody where
  title : String
  projectId : ObjectId
  priority : String
  dueDate : String
  assigneeId : Option String
  deriving DecidableEq, Repr

/-- Truthiness of `req.body.assigneeId`, the test of `if (!assigneeId)`: an
absent value and the empty string are falsy. -/
def truthy : Option String → Bool
  | none => false
  | some s => s != ""

/-- The document `new Task({ ... })` of lines 151-160; `random` is the value
drawn by `Math.random()`. -/
def newTask (body : TaskBody) (assigneeId : Option ObjectId) (random : Double) : Task :=
  { title := body.title
    projectId := body.projectId
    assigneeId := assigneeId
    priority := body.priority
    dueDate := body.dueDate
    status := "pending"
    estimatedHours := Math.floor random.mul20 + 5
    completedHours := 0 }

/-- The handler of `POST /api/tasks` from line 143 to `await task.save()` on
line 161: the saved document and the database after the save, or the
exception that sends the handler to its `catch`. The persistence layer is the
parameter `save`. -/
def postApiTasks (toLowerCase : String → String) (save : Db → Task → Except JSError Db)
    (random : Double) (db : Db) (body : TaskBody) : Except JSError (Task × Db) :=
  let assigneeId := body.assigneeId
  let assigned : Except JSError (Option ObjectId) :=
    if !truthy assigneeId then
      match aiAssignTask toLowerCase db body.title body.priority body.projectId with
      | Except.error e => Except.error e
      | Except.ok userId => Except.ok (some userId)
    else Except.ok assigneeId
  match assigned with
  | Except.error e => Except.error e
  | Except.ok assigneeId =>
    let task := newTask body assigneeId random
    match save db task with
    | Except.error e => Except.error e
    | Except.ok db' => Except.ok (task, db')

/-- A persistence layer that accepts every document: `save` appends it to the
task collection. -/
def saveAppend (db : Db) (task : Task) : Except JSError Db :=
  Except.ok { db with tasks := db.tasks ++ [task] }

/-! ### Concrete inputs -/

/-- A pending task assigned to `assignee`. -/
def openTask (assignee : ObjectId) : Task :=
  { title := "t", projectId := "p1", assigneeId := some assignee, status := "pending",
    priority := "low", dueDate := "2025-01-01", estimatedHours := 5, completedHours := 0 }

/-- A pending task without assignee, which `taskSchema` admits. -/
def unassignedTask : Task :=
  { title := "t", projectId := "p1", assigneeId := none, status := "pending",
    priority := "low", dueDate := "2025-01-01", estimatedHours := 5, completedHours := 0 }

/-- Scenarios 1 and 2 of the specification: `u1` knows "backend" and is idle,
`u2` knows "frontend" and has three open tasks. -/
def scenario1 : Db :=
  { users := [ { _id := "u1", role := "member", skills := ["backend"] },
               { _id := "u2", role := "member", skills := ["frontend"] } ],
    tasks := [openTask "u2", openTask "u2", openTask "u2"] }

/-- Scenario 3 of the specification: one candidate, no skills, six open tasks. -/
def scenario3 : Db :=
  { users := [ { _id := "u1", role := "member", skills := [] } ],
    tasks := [openTask "u1", openTask "u1", openTask "u1",
              openTask "u1", openTask "u1", openTask "u1"] }

/-- Two candidates with equal scores behind a weaker one. -/
def tieDb : Db :=
  { users := [ { _id := "u0", role := "member", skills := [] },
               { _id := "u1", role := "member", skills := ["Backend"] },
               { _id := "u2", role := "member", skills := ["bug"] } ],
    tasks := [openTask "u0"] }

/-- Scenario 3 with one more task in the collection, a task without assignee. -/
def scenario3Unassigned : Db :=
  { scenario3 with tasks := unassignedTask :: scenario3.tasks }

/-- The candidates of `tieDb` with one more task in the collection, a task
without assignee. -/
def tieDbUnassigned : Db :=
  { tieDb with tasks := tieDb.tasks ++ [unassignedTask] }

/-- One member and one task without assignee. -/
def unassignedDb : Db :=
  { users := [ { _id := "u1", role := "member", skills := ["backend"] } ],
    tasks := [unassignedTask] }

/-- A request that names its assignee. -/
def explicitBody : TaskBody :=
  { title := "Fix backend bug", projectId := "p1", priority := "low",
    dueDate := "2025-01-01", assigneeId := some "u2" }

/-- A request without assignee. -/
def autoBody : TaskBody :=
  { title := "Fix backend bug", projectId := "p1", priority := "low",
    dueDate := "2025-01-01", assigneeId := none }

/-- The double `0.5`. -/
def half : Double :=
  { mantissa := 2 ^ 52, exponent := -53 }

/-- The largest double below one, `1 - 2 ^ (-53)`. -/
def belowOne : Double :=
  { mantissa := 2 ^ 53 - 1, exponent := -53 }

/-! ## Lemmas on the substring test -/

/-- `isPrefixOf` finds exactly the lists that start with `t`. -/
theorem isPrefixOf_true_iff (t s : List Char) :
    t.isPrefixOf s = true ↔ ∃ post, s = t ++ post := by
  induction t generalizing s with
  | nil => simp
  | cons a t ih =>
    cases s with
    | nil => simp
    | cons b s =>
      simp only [List.isPrefixOf, Bool.and_eq_true, beq_iff_eq, ih, List.cons_append,
        List.cons.injEq]
      constructor
      · rintro ⟨rfl, post, rfl⟩
        exact ⟨post, rfl, rfl⟩
      · rintro ⟨post, rfl, rfl⟩
        exact ⟨rfl, post, rfl⟩

/-- The substring test holds exactly when `t` occurs in `s` as a contiguous
block. -/
theorem includesChars_true_iff (s t : List Char) :
    includesChars s t = true ↔ ∃ before after, s = before ++ (t ++ after) := by
  induction s with
  | nil =>
    simp only [includesChars, List.isEmpty_iff]
    constructor
    · rintro rfl
      exact ⟨[], [], rfl⟩
    · rintro ⟨before, after, h⟩
      have h1 := congrArg List.length h
      simp only [List.length_nil, List.length_append] at h1
      exact List.length_eq_zero.mp (by omega)
  | cons c s ih =>
    simp only [includesChars, Bool.or_eq_true, isPrefixOf_true_iff, ih]
    constructor
    · rintro (⟨post, h⟩ | ⟨before, after, h⟩)
      · exact ⟨[], post, h⟩
      · exact ⟨c :: before, after, by rw [h]; rfl⟩
    · rintro ⟨before, after, h⟩
      cases before with
      | nil => exact Or.inl ⟨after, h⟩
      | cons b before =>
        right
        simp only [List.cons_append, List.cons.injEq] at h
        exact ⟨before, after, h.2⟩

/-! ## Lemmas on the filter and the per-user score -/

theorem isOpenTaskOf_of_isSome (user : User) (t : Task) (h : t.assigneeId.isSome = true) :
    isOpenTaskOf user t = Except.ok (openFor user t) := by
  unfold isOpenTaskOf openFor
  cases ha : t.assigneeId with
  | none => simp [ha] at h
  | some a => simp

theorem isOpenTaskOf_of_none (user : User) (t : Task) (h : t.assigneeId = none) :
    isOpenTaskOf user t = Except.error
      (JSError.TypeError "Cannot read properties of undefined (reading 'equals')") := by
  unfold isOpenTaskOf
  simp [h]

theorem userTasks_of_allAssigned (user : User) (tasks : List Task) (h : allAssigned tasks) :
    userTasks tasks user = Except.ok (tasks.filter (openFor user)) := by
  unfold userTasks
  induction tasks with
  | nil => rfl
  | cons t ts ih =>
    have ht : t.assigneeId.isSome = true := h t (List.mem_cons_self _ _)
    have hts : allAssigned ts := fun x hx => h x (List.mem_cons_of_mem _ hx)
    simp only [filterThrowing, isOpenTaskOf_of_isSome user t ht, ih hts, List.filter_cons]

theorem userTasks_error_of_unassigned (user : User) (tasks : List Task)
    (h : ¬ allAssigned tasks) :
    userTasks tasks user = Except.error
      (JSError.TypeError "Cannot read properties of undefined (reading 'equals')") := by
  unfold userTasks
  induction tasks with
  | nil => exact absurd (fun t ht => by cases ht) h
  | cons t ts ih =>
    cases ha : t.assigneeId with
    | none => simp only [filterThrowing, isOpenTaskOf_of_none user t ha]
    | some a =>
      have ht : t.assigneeId.isSome = true := by simp [ha]
      have hts : ¬ allAssigned ts := by
        intro hall
        apply h
        intro x hx
        rcases List.mem_cons.mp hx with rfl | hx
        · exact ht
        · exact hall x hx
      simp only [filterThrowing, isOpenTaskOf_of_isSome user t ht, ih hts]

theorem allAssigned_of_userTasks_ok (user : User) (tasks : List Task) (r : List Task)
    (h : userTasks tasks user = Except.ok r) : allAssigned tasks := by
  by_contra hn
  rw [userTasks_error_of_unassigned user tasks hn] at h
  cases h

theorem skillsForEach_eq (toLowerCase : String → String) (title : String)
    (skills : List String) (score : Int) :
    skillsForEach toLowerCase title skills score
      = score + 10 * (((skills.filter
          (fun tag => includes (toLowerCase title) (toLowerCase tag))).length : Nat) : Int) := by
  unfold skillsForEach
  induction skills generalizing score with
  | nil => simp
  | cons k ks ih =>
    simp only [List.foldl_cons, List.filter_cons]
    rw [ih]
    by_cases hk : includes (toLowerCase title) (toLowerCase k) = true
    · simp only [hk, if_true, List.length_cons]; push_cast; ring
    · simp only [hk, if_false]; simp

theorem userScore_of_allAssigned (toLowerCase : String → String) (title priority : String)
    (tasks : List Task) (user : User) (h : allAssigned tasks) :
    userScore toLowerCase title priority tasks user
      = Except.ok { userId := user._id,
                    score := specScore toLowerCase title priority tasks user } := by
  unfold userScore specScore workloadTerm
  simp only [userTasks_of_allAssigned user tasks h, skillsForEach_eq]
  by_cases hp : priority = "high" <;> simp [hp]

theorem userScore_error_of_unassigned (toLowerCase : String → String)
    (title priority : String) (tasks : List Task) (user : User) (h : ¬ allAssigned tasks) :
    userScore toLowerCase title priority tasks user = Except.error
      (JSError.TypeError "Cannot read properties of undefined (reading 'equals')") := by
  unfold userScore
  simp only [userTasks_error_of_unassigned user tasks h]

theorem userScores_of_allAssigned (toLowerCase : String → String) (title priority : String)
    (tasks : List Task) (users : List User) (h : allAssigned tasks) :
    userScores toLowerCase title priority tasks users
      = Except.ok (users.map (fun u =>
          { userId := u._id, score := specScore toLowerCase title priority tasks u })) := by
  induction users with
  | nil => rfl
  | cons u us ih =>
    simp only [userScores, userScore_of_allAssigned toLowerCase title priority tasks u h, ih,
      List.map_cons]

theorem userScores_error_of_unassigned (toLowerCase : String → String)
    (title priority : String) (tasks : List Task) (users : List User)
    (hne : users ≠ []) (h : ¬ allAssigned tasks) :
    userScores toLowerCase title priority tasks users = Except.error
      (JSError.TypeError "Cannot read properties of undefined (reading 'equals')") := by
  cases users with
  | nil => exact absurd rfl hne
  | cons u us =>
    simp only [userScores, userScore_error_of_unassigned toLowerCase title priority tasks u h]

/-! ## The sort and the selected head -/

theorem insertSorted_perm (x : UserScore) (l : List UserScore) :
    (insertSorted compareFn x l).Perm (x :: l) := by
  induction l with
  | nil => exact List.Perm.refl _
  | cons y ys ih =>
    simp only [insertSorted]
    split_ifs
    · exact List.Perm.refl _
    · exact (List.Perm.cons y ih).trans (List.Perm.swap x y ys)

/-- The sorted array holds the same elements as the input. -/
theorem sort_perm (l : List UserScore) : (sort compareFn l).Perm l := by
  induction l with
  | nil => exact List.Perm.refl _
  | cons x xs ih =>
    simp only [sort]
    exact (insertSorted_perm x _).trans (List.Perm.cons x ih)

theorem insertSorted_descending (x : UserScore) (l : List UserScore)
    (h : l.Pairwise (fun a b => b.score ≤ a.score)) :
    (insertSorted compareFn x l).Pairwise (fun a b => b.score ≤ a.score) := by
  induction l with
  | nil => simp [insertSorted]
  | cons y ys ih =>
    simp only [insertSorted]
    have hy := List.pairwise_cons.mp h
    split_ifs with hc
    · refine List.pairwise_cons.mpr ⟨?_, h⟩
      have hyx : y.score ≤ x.score := by unfold compareFn at hc; omega
      intro z hz
      rcases List.mem_cons.mp hz with rfl | hz
      · exact hyx
      · exact le_trans (hy.1 z hz) hyx
    · refine List.pairwise_cons.mpr ⟨?_, ih hy.2⟩
      intro z hz
      rcases List.mem_cons.mp ((insertSorted_perm x ys).subset hz) with rfl | hz
      · unfold compareFn at hc; omega
      · exact hy.1 z hz

/-- The sorted array is in descending order of score. -/
theorem sort_descending (l : List UserScore) :
    (sort compareFn l).Pairwise (fun a b => b.score ≤ a.score) := by
  induction l with
  | nil => simp [sort]
  | cons x xs ih => exact insertSorted_descending x _ ih

/-- The head of the sorted array of scores comes from the first user of
maximal score: every user before it in the input scores strictly less, every
user after it scores at most as much. -/
theorem sort_head_map (g : User → UserScore) (users : List User) (hne : users ≠ []) :
    ∃ pre u post rest, users = pre ++ u :: post ∧
      sort compareFn (users.map g) = g u :: rest ∧
      (∀ v ∈ pre, (g v).score < (g u).score) ∧ (∀ v ∈ post, (g v).score ≤ (g u).score) := by
  induction users with
  | nil => exact absurd rfl hne
  | cons x xs ih =>
    by_cases hxs : xs = []
    · subst hxs
      exact ⟨[], x, [], [], rfl, rfl, by simp, by simp⟩
    · obtain ⟨pre, f, post, rest, hdec, hsort, hpre, hpost⟩ := ih hxs
      by_cases hc : compareFn (g x) (g f) ≤ 0
      · refine ⟨[], x, xs, g f :: rest, rfl, ?_, by simp, ?_⟩
        · simp only [List.map_cons, sort, hsort, insertSorted, hc, if_true]
        · have hfx : (g f).score ≤ (g x).score := by unfold compareFn at hc; omega
          intro y hy
          rw [hdec] at hy
          rcases List.mem_append.mp hy with hy | hy
          · exact le_trans (le_of_lt (hpre y hy)) hfx
          · rcases List.mem_cons.mp hy with rfl | hy
            · exact hfx
            · exact le_trans (hpost y hy) hfx
      · refine ⟨x :: pre, f, post, insertSorted compareFn (g x) rest, ?_, ?_, ?_, hpost⟩
        · rw [hdec]; rfl
        · simp only [List.map_cons, sort, hsort, insertSorted, hc, if_false]
        · intro y hy
          rcases List.mem_cons.mp hy with rfl | hy
          · unfold compareFn at hc; omega
          · exact hpre y hy

/-- What `aiAssignTask` returns on a non-empty pool when every task has an
assignee: the first candidate of maximal score. -/
theorem aiAssignTask_selects (toLowerCase : String → String) (db : Db)
    (title priority : String) (projectId : ObjectId)
    (hpool : User.find db "member" ≠ []) (hassigned : allAssigned db.tasks) :
    ∃ pre u post, User.find db "member" = pre ++ u :: post ∧
      aiAssignTask toLowerCase db title priority projectId = Except.ok u._id ∧
      (∀ v ∈ pre, specScore toLowerCase title priority db.tasks v
          < specScore toLowerCase title priority db.tasks u) ∧
      (∀ v ∈ post, specScore toLowerCase title priority db.tasks v
          ≤ specScore toLowerCase title priority db.tasks u) := by
  obtain ⟨pre, u, post, rest, hdec, hsort, hpre, hpost⟩ :=
    sort_head_map
      (fun u => (⟨u._id, specScore toLowerCase title priority db.tasks u⟩ : UserScore))
      (User.find db "member") hpool
  refine ⟨pre, u, post, hdec, ?_, hpre, hpost⟩
  unfold aiAssignTask
  simp only [Task.find, userScores_of_allAssigned toLowerCase title priority db.tasks _ hassigned,
    hsort]

/-- On an empty pool the final `userScores[0].userId` throws. -/
theorem aiAssignTask_empty_pool (toLowerCase : String → String) (db : Db)
    (title priority : String) (projectId : ObjectId)
    (hpool : User.find db "member" = []) :
    aiAssignTask toLowerCase db title priority projectId = Except.error
      (JSError.TypeError "Cannot read properties of undefined (reading 'userId')") := by
  unfold aiAssignTask
  simp only [hpool, userScores, sort]

/-- On a non-empty pool a task without assignee makes the filter throw. -/
theorem aiAssignTask_unassigned (toLowerCase : String → String) (db : Db)
    (title priority : String) (projectId : ObjectId)
    (hpool : User.find db "member" ≠ []) (h : ¬ allAssigned db.tasks) :
    aiAssignTask toLowerCase db title priority projectId = Except.error
      (JSError.TypeError "Cannot read properties of undefined (reading 'equals')") := by
  unfold aiAssignTask
  simp only [Task.find,
    userScores_error_of_unassigned toLowerCase title priority db.tasks _ hpool h]

/-! ## The estimated hours -/

theorem bitLengthAux_le_iff (fuel n j : Nat) (h : n ≤ fuel) :
    bitLengthAux fuel n ≤ j ↔ n < 2 ^ j := by
  induction fuel generalizing n j with
  | zero =>
    have : n = 0 := by omega
    subst this
    simp [bitLengthAux]
  | succ f ih =>
    by_cases hn : n = 0
    · subst hn; simp [bitLengthAux]
    · simp only [bitLengthAux, hn, if_false]
      cases j with
      | zero => simp; omega
      | succ j =>
        rw [Nat.add_le_add_iff_right, ih (n / 2) j (by omega), pow_succ]
        omega

/-- A number has at most `j` binary digits exactly when it is below `2 ^ j`. -/
theorem bitLength_le_iff (n j : Nat) : bitLength n ≤ j ↔ n < 2 ^ j :=
  bitLengthAux_le_iff n n j (le_refl n)

/-- The rounded quotient is a nearest integer to `n / 2 ^ k`. -/
theorem roundNearestEven_nearest (n k : Nat) :
    2 * (roundNearestEven n k * 2 ^ k) ≤ 2 * n + 2 ^ k ∧
    2 * n ≤ 2 * (roundNearestEven n k * 2 ^ k) + 2 ^ k := by
  have hdm : 2 ^ k * (n / 2 ^ k) + n % 2 ^ k = n := Nat.div_add_mod n (2 ^ k)
  have hr : n % 2 ^ k < 2 ^ k := Nat.mod_lt _ (by positivity)
  unfold roundNearestEven
  generalize 2 ^ k = P at *
  generalize n / P = q at *
  generalize n % P = r at *
  subst hdm
  simp only []
  split_ifs <;> constructor <;> nlinarith

/-- The function `Math.floor` is the floor of the rational denoted. -/
theorem Math.floor_eq (d : Double) : Math.floor d = ⌊d.toRat⌋ := by
  unfold Math.floor Double.toRat
  split_ifs with he
  · have hexp : d.exponent = ((d.exponent.toNat : Nat) : Int) := (Int.toNat_of_nonneg he).symm
    rw [hexp, zpow_natCast]
    simp only [Int.toNat_ofNat]
    have : ((d.mantissa : ℚ) * 2 ^ d.exponent.toNat) = ((d.mantissa * 2 ^ d.exponent.toNat : Nat) : ℚ) := by
      push_cast; ring
    rw [this]
    exact (Int.floor_natCast _).symm
  · have hexp : d.exponent = -(((-d.exponent).toNat : Nat) : Int) := by
      rw [Int.toNat_of_nonneg (by omega)]; ring
    rw [hexp, zpow_neg, zpow_natCast]
    simp only [neg_neg, Int.toNat_ofNat]
    rw [← div_eq_mul_inv]
    have : ((2 : ℚ) ^ (-d.exponent).toNat) = (((2 ^ (-d.exponent).toNat : Nat)) : ℚ) := by
      push_cast; ring
    rw [this]
    rw [Rat.floor_natCast_div_natCast]
    push_cast
    rfl

theorem roundNearestEven_lt (m A k : Nat) (hk : k ≤ 5) (h : m < A * 2 ^ k) :
    roundNearestEven (m * 20) k < 20 * A := by
  unfold roundNearestEven
  interval_cases k <;> simp only [] <;> norm_num at h ⊢ <;> split_ifs <;> omega

/-- A double below one is zero or has a negative exponent that outweighs its
mantissa. -/
theorem Double.lt_one_iff (d : Double) (h1 : d.toRat < 1) :
    d.mantissa = 0 ∨ (d.exponent < 0 ∧ d.mantissa < 2 ^ (-d.exponent).toNat) := by
  by_cases hm : d.mantissa = 0
  · exact Or.inl hm
  · right
    have hm1 : (1 : ℚ) ≤ (d.mantissa : ℚ) := by
      exact_mod_cast Nat.one_le_iff_ne_zero.mpr hm
    unfold Double.toRat at h1
    by_cases he : 0 ≤ d.exponent
    · exfalso
      have h2 : (1 : ℚ) ≤ (2 : ℚ) ^ d.exponent := one_le_zpow₀ (by norm_num) he
      have : (1 : ℚ) ≤ (d.mantissa : ℚ) * (2 : ℚ) ^ d.exponent := by
        calc (1 : ℚ) = 1 * 1 := by norm_num
          _ ≤ (d.mantissa : ℚ) * (2 : ℚ) ^ d.exponent :=
            mul_le_mul hm1 h2 (by norm_num) (by linarith)
      linarith
    · have he' : d.exponent < 0 := by omega
      refine ⟨he', ?_⟩
      have hexp : d.exponent = -(((-d.exponent).toNat : Nat) : Int) := by
        rw [Int.toNat_of_nonneg (by omega)]; ring
      rw [hexp, zpow_neg, zpow_natCast] at h1
      have hpos : (0 : ℚ) < (2 : ℚ) ^ (-d.exponent).toNat := by positivity
      rw [← div_eq_mul_inv, div_lt_one hpos] at h1
      exact_mod_cast h1

/-- The floor of `d * 20` for a double `d` in `[0, 1)`. -/
theorem floor_mul20_bounds (d : Double) (hm : d.mantissa < 2 ^ 53) (h1 : d.toRat < 1) :
    0 ≤ Math.floor d.mul20 ∧ Math.floor d.mul20 ≤ 19 := by
  constructor
  · unfold Math.floor
    split_ifs <;> exact Int.ofNat_nonneg _
  · rcases Double.lt_one_iff d h1 with h0 | ⟨he, hlt⟩
    · have hz : d.mul20 = { mantissa := 0, exponent := d.exponent } := by
        unfold Double.mul20
        simp [h0, roundNearestEven, bitLength, bitLengthAux]
      rw [hz]
      unfold Math.floor
      split_ifs <;> simp
    · -- the significant bits dropped by the rounding
      have hk : bitLength (d.mantissa * 20) - 53 ≤ 5 := by
        have : bitLength (d.mantissa * 20) ≤ 58 := by
          rw [bitLength_le_iff]
          have : (2 : Nat) ^ 58 = 32 * 2 ^ 53 := by norm_num
          omega
        omega
      set k := bitLength (d.mantissa * 20) - 53 with hkdef
      set a := (-d.exponent).toNat with hadef
      have ha : d.exponent = -(a : Int) := by
        rw [hadef, Int.toNat_of_nonneg (by omega)]; ring
      -- the exponent outweighs the dropped bits
      have hka : k < a := by
        by_cases hk0 : k = 0
        · omega
        · have hlen : ¬ bitLength (d.mantissa * 20) ≤ 52 + k := by omega
          have hge : 2 ^ (52 + k) ≤ d.mantissa * 20 := by
            rw [bitLength_le_iff] at hlen
            omega
          have hlt5 : d.mantissa * 20 < 2 ^ (a + 5) := by
            have : (2 : Nat) ^ (a + 5) = 32 * 2 ^ a := by rw [pow_add]; norm_num; ring
            omega
          have hpow : (2 : Nat) ^ (52 + k) < 2 ^ (a + 5) := lt_of_le_of_lt hge hlt5
          have := (Nat.pow_lt_pow_iff_right (by norm_num : 1 < 2)).mp hpow
          omega
      have hround : roundNearestEven (d.mantissa * 20) k < 20 * 2 ^ (a - k) := by
        apply roundNearestEven_lt _ _ _ hk
        rw [← pow_add, Nat.sub_add_cancel (le_of_lt hka)]
        exact hlt
      have hexp : d.mul20.exponent = -(((a - k : Nat) : Nat) : Int) := by
        show d.exponent + (k : Int) = _
        rw [ha]; omega
      have hman : d.mul20.mantissa = roundNearestEven (d.mantissa * 20) k := rfl
      unfold Math.floor
      have hneg : ¬ (0 ≤ d.mul20.exponent) := by rw [hexp]; omega
      rw [if_neg hneg, hexp, hman]
      simp only [neg_neg, Int.toNat_ofNat]
      have hdiv : roundNearestEven (d.mantissa * 20) k / 2 ^ (a - k) < 20 := by
        rw [Nat.div_lt_iff_lt_mul (by positivity)]
        exact hround
      omega

/-! ## The route -/

theorem postApiTasks_truthy (toLowerCase : String → String)
    (save : Db → Task → Except JSError Db) (random : Double) (db : Db) (body : TaskBody)
    (h : truthy body.assigneeId = true) :
    postApiTasks toLowerCase save random db body
      = (save db (newTask body body.assigneeId random)).map
          (fun db' => (newTask body body.assigneeId random, db')) := by
  unfold postApiTasks
  simp only [h, Bool.not_true, Bool.false_eq_true, if_false]
  cases save db (newTask body body.assigneeId random) <;> rfl

theorem postApiTasks_falsy_ok (toLowerCase : String → String)
    (save : Db → Task → Except JSError Db) (random : Double) (db : Db) (body : TaskBody)
    (h : truthy body.assigneeId = false) (userId : ObjectId)
    (hai : aiAssignTask toLowerCase db body.title body.priority body.projectId
      = Except.ok userId) :
    postApiTasks toLowerCase save random db body
      = (save db (newTask body (some userId) random)).map
          (fun db' => (newTask body (some userId) random, db')) := by
  unfold postApiTasks
  simp only [h, hai, Bool.not_false, if_true]
  cases save db (newTask body (some userId) random) <;> rfl

theorem postApiTasks_falsy_error (toLowerCase : String → String)
    (save : Db → Task → Except JSError Db) (random : Double) (db : Db) (body : TaskBody)
    (h : truthy body.assigneeId = false) (e : JSError)
    (hai : aiAssignTask toLowerCase db body.title body.priority body.projectId
      = Except.error e) :
    postApiTasks toLowerCase save random db body = Except.error e := by
  unfold postApiTasks
  simp only [h, hai, Bool.not_false, if_true]

/-- Every document the handler saves was built by `newTask`. -/
theorem postApiTasks_ok_newTask (toLowerCase : String → String)
    (save : Db → Task → Except JSError Db) (random : Double) (db : Db) (body : TaskBody)
    (task : Task) (db' : Db)
    (h : postApiTasks toLowerCase save random db body = Except.ok (task, db')) :
    ∃ assigneeId, task = newTask body assigneeId random := by
  cases ht : truthy body.assigneeId with
  | true =>
    rw [postApiTasks_truthy toLowerCase save random db body ht] at h
    cases hs : save db (newTask body body.assigneeId random) with
    | error e => rw [hs] at h; cases h
    | ok d =>
      rw [hs] at h
      refine ⟨body.assigneeId, ?_⟩
      simp only [Except.map] at h
      injection h with h
      exact (congrArg Prod.fst h).symm
  | false =>
    cases hai : aiAssignTask toLowerCase db body.title body.priority body.projectId with
    | error e =>
      rw [postApiTasks_falsy_error toLowerCase save random db body ht e hai] at h
      cases h
    | ok userId =>
      rw [postApiTasks_falsy_ok toLowerCase save random db body ht userId hai] at h
      cases hs : save db (newTask body (some userId) random) with
      | error e => rw [hs] at h; cases h
      | ok d =>
        rw [hs] at h
        refine ⟨some userId, ?_⟩
        simp only [Except.map] at h
        injection h with h
        exact (congrArg Prod.fst h).symm

/-! ## The assignment engine: selection -/

/-- C1: on a non-empty candidate pool, with every existing task assigned,
`aiAssignTask` returns the identifier of a candidate whose score (ten per
matching skill tag, plus `max(0, 5 - open tasks)`, plus five for priority
"high") is at least the score of every candidate of the pool. -/
theorem aiAssignTask_returns_max_score (toLowerCase : String → String) (db : Db)
    (title priority : String) (projectId : ObjectId)
    (hpool : User.find db "member" ≠ []) (hassigned : allAssigned db.tasks) :
    ∃ u ∈ User.find db "member",
      aiAssignTask toLowerCase db title priority projectId = Except.ok u._id ∧
      ∀ v ∈ User.find db "member",
        specScore toLowerCase title priority db.tasks v
          ≤ specScore toLowerCase title priority db.tasks u := by
  obtain ⟨pre, u, post, hdec, hres, hpre, hpost⟩ :=
    aiAssignTask_selects toLowerCase db title priority projectId hpool hassigned
  refine ⟨u, by rw [hdec]; simp, hres, ?_⟩
  intro v hv
  rw [hdec] at hv
  rcases List.mem_append.mp hv with hv | hv
  · exact le_of_lt (hpre v hv)
  · rcases List.mem_cons.mp hv with rfl | hv
    · exact le_refl _
    · exact hpost v hv

/-- Scenario 1 of the specification: `u1` scores 15, `u2` scores 2, and the
result is `u1`. -/
theorem aiAssignTask_returns_max_score_witness :
    (User.find scenario1 "member" ≠ [] ∧ allAssigned scenario1.tasks) ∧
    (∃ u ∈ User.find scenario1 "member",
      aiAssignTask asciiLower scenario1 "Fix backend bug" "low" "p1" = Except.ok u._id ∧
      ∀ v ∈ User.find scenario1 "member",
        specScore asciiLower "Fix backend bug" "low" scenario1.tasks v
          ≤ specScore asciiLower "Fix backend bug" "low" scenario1.tasks u) ∧
    specScore asciiLower "Fix backend bug" "low" scenario1.tasks
      { _id := "u1", role := "member", skills := ["backend"] } = 15 ∧
    specScore asciiLower "Fix backend bug" "low" scenario1.tasks
      { _id := "u2", role := "member", skills := ["frontend"] } = 2 ∧
    aiAssignTask asciiLower scenario1 "Fix backend bug" "low" "p1" = Except.ok "u1" :=
  ⟨⟨by decide, by decide⟩,
   aiAssignTask_returns_max_score asciiLower scenario1 "Fix backend bug" "low" "p1"
     (by decide) (by decide),
   by rfl, by rfl, by rfl⟩

/-- C2: a non-empty candidate pool does not guarantee that an identifier of
the pool is returned. On scenario 3 the only candidate is returned; with one
task without assignee added to the collection the pool is the same, and for
every title and priority `aiAssignTask` throws the `TypeError` of the filter
and returns no identifier of the pool. -/
theorem aiAssignTask_pool_member_fails_unassigned (toLowerCase : String → String)
    (title priority : String) (projectId : ObjectId) :
    User.find scenario3Unassigned "member" = User.find scenario3 "member" ∧
    User.find scenario3Unassigned "member" ≠ [] ∧
    aiAssignTask asciiLower scenario3 "Update UI" "low" "p1" = Except.ok "u1" ∧
    aiAssignTask toLowerCase scenario3Unassigned title priority projectId
      = Except.error
          (JSError.TypeError "Cannot read properties of undefined (reading 'equals')") ∧
    ¬ ∃ u ∈ User.find scenario3Unassigned "member",
        aiAssignTask toLowerCase scenario3Unassigned title priority projectId
          = Except.ok u._id := by
  have herr := aiAssignTask_unassigned toLowerCase scenario3Unassigned title priority
    projectId (by decide) (by decide)
  refine ⟨rfl, by decide, rfl, herr, ?_⟩
  rintro ⟨u, -, hu⟩
  rw [herr] at hu
  cases hu

/-- C10: a non-empty candidate pool does not guarantee that the first
candidate of maximal score is returned. In `tieDb` the candidates score 4, 15
and 15 and the first of the two tied candidates, `u1`, is returned; with one
task without assignee added to the collection the pool is the same, and for
every title and priority `aiAssignTask` throws the `TypeError` of the filter
and returns no identifier at all. -/
theorem aiAssignTask_tie_break_fails_unassigned (toLowerCase : String → String)
    (title priority : String) (projectId : ObjectId) :
    User.find tieDbUnassigned "member" = User.find tieDb "member" ∧
    User.find tieDbUnassigned "member" ≠ [] ∧
    userScores asciiLower "Fix backend bug" "low" tieDb.tasks (User.find tieDb "member")
      = Except.ok [⟨"u0", 4⟩, ⟨"u1", 15⟩, ⟨"u2", 15⟩] ∧
    aiAssignTask asciiLower tieDb "Fix backend bug" "low" "p1" = Except.ok "u1" ∧
    aiAssignTask toLowerCase tieDbUnassigned title priority projectId
      = Except.error
          (JSError.TypeError "Cannot read properties of undefined (reading 'equals')") ∧
    ¬ ∃ userId, aiAssignTask toLowerCase tieDbUnassigned title priority projectId
          = Except.ok userId := by
  have herr := aiAssignTask_unassigned toLowerCase tieDbUnassigned title priority
    projectId (by decide) (by decide)
  refine ⟨rfl, by decide, rfl, rfl, herr, ?_⟩
  rintro ⟨userId, hu⟩
  rw [herr] at hu
  cases hu

/-! ## The assignment engine: failures -/

/-- C3: with an empty candidate pool, for every title, priority and task
collection, `aiAssignTask` does not fail with a dedicated "no eligible
candidates" error: reading `userScores[0].userId` throws a `TypeError`. -/
theorem aiAssignTask_empty_pool_typeError (toLowerCase : String → String)
    (tasks : List Task) (title priority : String) (projectId : ObjectId) :
    aiAssignTask toLowerCase { users := [], tasks := tasks } title priority projectId
      = Except.error
          (JSError.TypeError "Cannot read properties of undefined (reading 'userId')") :=
  aiAssignTask_empty_pool toLowerCase _ title priority projectId rfl

/-- C4: a non-empty pool does not rule out failure: with one member and one
task without assignee, `aiAssignTask` throws a `TypeError` for every title and
priority instead of returning an identifier. -/
theorem aiAssignTask_unassigned_task_typeError (toLowerCase : String → String)
    (title priority : String) (projectId : ObjectId) :
    aiAssignTask toLowerCase unassignedDb title priority projectId
      = Except.error
          (JSError.TypeError "Cannot read properties of undefined (reading 'equals')") :=
  aiAssignTask_unassigned toLowerCase unassignedDb title priority projectId
    (by decide) (by decide)

/-! ## The assignment engine: how the score varies -/

/-- C5: for every priority `p` other than "high", the score a candidate gets
under priority "high" is its score under `p` plus exactly 5 (and the scoring
fails under one exactly when it fails under the other); so for two candidates
the order of their scores is the same under both priorities. -/
theorem priority_bias_uniform (toLowerCase : String → String) (title p : String)
    (tasks : List Task) (u v : User) (hp : p ≠ "high") :
    userScore toLowerCase title "high" tasks u
      = (userScore toLowerCase title p tasks u).map
          (fun s => { s with score := s.score + 5 }) ∧
    ∀ su sv, userScore toLowerCase title p tasks u = Except.ok su →
      userScore toLowerCase title p tasks v = Except.ok sv →
      ∃ su' sv', userScore toLowerCase title "high" tasks u = Except.ok su' ∧
        userScore toLowerCase title "high" tasks v = Except.ok sv' ∧
        su'.score = su.score + 5 ∧ sv'.score = sv.score + 5 ∧
        (su'.score < sv'.score ↔ su.score < sv.score) ∧
        (su'.score ≤ sv'.score ↔ su.score ≤ sv.score) := by
  have key : ∀ w : User, userScore toLowerCase title "high" tasks w
      = (userScore toLowerCase title p tasks w).map
          (fun s => { s with score := s.score + 5 }) := by
    intro w
    unfold userScore
    cases userTasks tasks w with
    | error e => rfl
    | ok ut => simp [Except.map, hp]
  refine ⟨key u, ?_⟩
  intro su sv hu hv
  refine ⟨{ su with score := su.score + 5 }, { sv with score := sv.score + 5 }, ?_, ?_,
    rfl, rfl, ?_, ?_⟩
  · rw [key u, hu]; rfl
  · rw [key v, hv]; rfl
  · simp
  · simp

/-- Scenario 1 under "low" and "high": 15 and 2 become 20 and 7. -/
theorem priority_bias_uniform_witness :
    "low" ≠ "high" ∧
    userScore asciiLower "Fix backend bug" "low" scenario1.tasks
      { _id := "u1", role := "member", skills := ["backend"] }
      = Except.ok { userId := "u1", score := 15 } ∧
    userScore asciiLower "Fix backend bug" "high" scenario1.tasks
      { _id := "u1", role := "member", skills := ["backend"] }
      = Except.ok { userId := "u1", score := 20 } ∧
    userScore asciiLower "Fix backend bug" "low" scenario1.tasks
      { _id := "u2", role := "member", skills := ["frontend"] }
      = Except.ok { userId := "u2", score := 2 } ∧
    userScore asciiLower "Fix backend bug" "high" scenario1.tasks
      { _id := "u2", role := "member", skills := ["frontend"] }
      = Except.ok { userId := "u2", score := 7 } ∧
    userScore asciiLower "Fix backend bug" "high" scenario1.tasks
      { _id := "u1", role := "member", skills := ["backend"] }
      = (userScore asciiLower "Fix backend bug" "low" scenario1.tasks
          { _id := "u1", role := "member", skills := ["backend"] }).map
          (fun s => { s with score := s.score + 5 }) :=
  ⟨by decide, by rfl, by rfl, by rfl, by rfl,
   (priority_bias_uniform asciiLower "Fix backend bug" "low" scenario1.tasks
      { _id := "u1", role := "member", skills := ["backend"] }
      { _id := "u2", role := "member", skills := ["frontend"] } (by decide)).1⟩

/-- C6: adding to a user's skill tags, at any position, one tag whose
lower-cased form is a substring of the lower-cased title raises the score
`aiAssignTask` computes for that user by exactly 10, everything else equal. -/
theorem skill_match_adds_ten (toLowerCase : String → String) (title priority : String)
    (tasks : List Task) (user : User) (pre post : List String) (tag : String)
    (hmatch : includes (toLowerCase title) (toLowerCase tag) = true) :
    userScore toLowerCase title priority tasks { user with skills := pre ++ tag :: post }
      = (userScore toLowerCase title priority tasks { user with skills := pre ++ post }).map
          (fun s => { s with score := s.score + 10 }) := by
  have hut : userTasks tasks { user with skills := pre ++ tag :: post }
      = userTasks tasks { user with skills := pre ++ post } := rfl
  unfold userScore
  rw [hut]
  simp only [skillsForEach_eq, List.filter_append, List.filter_cons, hmatch, if_true,
    List.length_append, List.length_cons]
  cases userTasks tasks { user with skills := pre ++ post } with
  | error e => rfl
  | ok ut =>
    simp only [Except.map]
    by_cases hp : priority = "high"
    · simp only [hp, if_true]; congr 2; push_cast; ring
    · simp only [hp, if_false]; congr 2; push_cast; ring

/-- The idle user of scenario 1 without skills scores 5 on "Fix backend bug";
given the tag "Backend" the score is 15. -/
theorem skill_match_adds_ten_witness :
    includes (asciiLower "Fix backend bug") (asciiLower "Backend") = true ∧
    userScore asciiLower "Fix backend bug" "low" scenario1.tasks
      { _id := "u1", role := "member", skills := ["api", "sql"] }
      = Except.ok { userId := "u1", score := 5 } ∧
    userScore asciiLower "Fix backend bug" "low" scenario1.tasks
      { _id := "u1", role := "member", skills := ["api", "Backend", "sql"] }
      = Except.ok { userId := "u1", score := 15 } ∧
    userScore asciiLower "Fix backend bug" "low" scenario1.tasks
      { ({ _id := "u1", role := "member", skills := [] } : User) with
        skills := ["api"] ++ "Backend" :: ["sql"] }
      = (userScore asciiLower "Fix backend bug" "low" scenario1.tasks
          { ({ _id := "u1", role := "member", skills := [] } : User) with
            skills := ["api"] ++ ["sql"] }).map
          (fun s => { s with score := s.score + 10 }) :=
  ⟨by rfl, by rfl, by rfl,
   skill_match_adds_ten asciiLower "Fix backend bug" "low" scenario1.tasks
     { _id := "u1", role := "member", skills := [] } ["api"] ["sql"] "Backend" (by rfl)⟩

/-- C7: adding, at any position, one more task assigned to the user and not
completed never raises the user's score: the workload term
`max(0, 5 - open tasks)` drops by one (and the score with it) while the user
has fewer than 5 open tasks, and stays 0 (the score unchanged) once the user
has 5 or more. -/
theorem workload_monotone (toLowerCase : String → String) (title priority : String)
    (user : User) (pre post : List Task) (t : Task)
    (hassigned : allAssigned (pre ++ post))
    (ht : t.assigneeId = some user._id) (hstatus : t.status ≠ "completed") :
    ∃ ut ut' s s',
      userTasks (pre ++ post) user = Except.ok ut ∧
      userTasks (pre ++ t :: post) user = Except.ok ut' ∧
      ut'.length = ut.length + 1 ∧
      userScore toLowerCase title priority (pre ++ post) user = Except.ok s ∧
      userScore toLowerCase title priority (pre ++ t :: post) user = Except.ok s' ∧
      s'.score ≤ s.score ∧
      workloadTerm ut' ≤ workloadTerm ut ∧
      (ut.length < 5 → workloadTerm ut' = workloadTerm ut - 1 ∧ s'.score = s.score - 1) ∧
      (5 ≤ ut.length → workloadTerm ut = 0 ∧ workloadTerm ut' = 0 ∧ s'.score = s.score) := by
  have hassigned' : allAssigned (pre ++ t :: post) := by
    intro x hx
    rcases List.mem_append.mp hx with hx | hx
    · exact hassigned x (List.mem_append_left _ hx)
    · rcases List.mem_cons.mp hx with rfl | hx
      · simp [ht]
      · exact hassigned x (List.mem_append_right _ hx)
  have hopen : openFor user t = true := by
    unfold openFor
    simp [ht, hstatus]
  have hlen : ((pre ++ t :: post).filter (openFor user)).length
      = ((pre ++ post).filter (openFor user)).length + 1 := by
    simp only [List.filter_append, List.filter_cons, hopen, if_true, List.length_append,
      List.length_cons]
    omega
  refine ⟨(pre ++ post).filter (openFor user), (pre ++ t :: post).filter (openFor user),
    _, _, userTasks_of_allAssigned user _ hassigned, userTasks_of_allAssigned user _ hassigned',
    hlen, userScore_of_allAssigned toLowerCase title priority _ user hassigned,
    userScore_of_allAssigned toLowerCase title priority _ user hassigned', ?_, ?_, ?_, ?_⟩
  · simp only [specScore, hlen]
    push_cast
    have : max (0 : Int) (5 - ((((pre ++ post).filter (openFor user)).length : Int) + 1))
        ≤ max 0 (5 - (((pre ++ post).filter (openFor user)).length : Int)) := by
      apply max_le_max (le_refl _); omega
    omega
  · simp only [workloadTerm, hlen]
    push_cast
    apply max_le_max (le_refl _); omega
  · intro h5
    simp only [workloadTerm, specScore, hlen]
    push_cast
    have h5' : (((pre ++ post).filter (openFor user)).length : Int) < 5 := by exact_mod_cast h5
    rw [max_eq_right (by omega), max_eq_right (by omega)]
    constructor <;> omega
  · intro h5
    simp only [workloadTerm, specScore, hlen]
    push_cast
    have h5' : (5 : Int) ≤ (((pre ++ post).filter (openFor user)).length : Int) := by
      exact_mod_cast h5
    rw [max_eq_left (by omega), max_eq_left (by omega)]
    simp

/-- The user `u2` of scenario 1 has three open tasks and workload term 2; a
fourth open task makes it 1. The user of scenario 3 has six open tasks and
workload term 0 before and after a seventh. -/
theorem workload_monotone_witness :
    (allAssigned ([openTask "u2"] ++ [openTask "u2", openTask "u2"]) ∧
      (openTask "u2").assigneeId = some "u2" ∧ (openTask "u2").status ≠ "completed") ∧
    (∃ ut ut' s s',
      userTasks ([openTask "u2"] ++ [openTask "u2", openTask "u2"])
        { _id := "u2", role := "member", skills := ["frontend"] } = Except.ok ut ∧
      userTasks ([openTask "u2"] ++ openTask "u2" :: [openTask "u2", openTask "u2"])
        { _id := "u2", role := "member", skills := ["frontend"] } = Except.ok ut' ∧
      ut'.length = ut.length + 1 ∧
      userScore asciiLower "Fix backend bug" "low"
        ([openTask "u2"] ++ [openTask "u2", openTask "u2"])
        { _id := "u2", role := "member", skills := ["frontend"] } = Except.ok s ∧
      userScore asciiLower "Fix backend bug" "low"
        ([openTask "u2"] ++ openTask "u2" :: [openTask "u2", openTask "u2"])
        { _id := "u2", role := "member", skills := ["frontend"] } = Except.ok s' ∧
      s'.score ≤ s.score ∧
      workloadTerm ut' ≤ workloadTerm ut ∧
      (ut.length < 5 → workloadTerm ut' = workloadTerm ut - 1 ∧ s'.score = s.score - 1) ∧
      (5 ≤ ut.length → workloadTerm ut = 0 ∧ workloadTerm ut' = 0 ∧ s'.score = s.score)) ∧
    userScore asciiLower "Fix backend bug" "low" scenario1.tasks
      { _id := "u2", role := "member", skills := ["frontend"] }
      = Except.ok { userId := "u2", score := 2 } ∧
    userScore asciiLower "Fix backend bug" "low" (openTask "u2" :: scenario1.tasks)
      { _id := "u2", role := "member", skills := ["frontend"] }
      = Except.ok { userId := "u2", score := 1 } ∧
    userScore asciiLower "Fix backend bug" "low" scenario3.tasks
      { _id := "u1", role := "member", skills := [] }
      = Except.ok { userId := "u1", score := 0 } ∧
    userScore asciiLower "Fix backend bug" "low" (openTask "u1" :: scenario3.tasks)
      { _id := "u1", role := "member", skills := [] }
      = Except.ok { userId := "u1", score := 0 } :=
  ⟨⟨by decide, by rfl, by decide⟩,
   workload_monotone asciiLower "Fix backend bug" "low"
     { _id := "u2", role := "member", skills := ["frontend"] }
     [openTask "u2"] [openTask "u2", openTask "u2"] (openTask "u2")
     (by decide) (by rfl) (by decide),
   by rfl, by rfl, by rfl, by rfl⟩

/-! ## The task-creation route -/

/-- C8: the route calls the assignment engine exactly when the request has no
truthy `assigneeId`. With one, the document handed to the persistence layer
carries the supplied `assigneeId` and the outcome does not depend on
`aiAssignTask`; without one, a failure of `aiAssignTask` is the failure of the
request, and an identifier returned by `aiAssignTask` for the request's title
and priority is the `assigneeId` of the document handed to the persistence
layer. -/
theorem postApiTasks_assignee (toLowerCase : String → String)
    (save : Db → Task → Except JSError Db) (random : Double) (db : Db) (body : TaskBody) :
    (truthy body.assigneeId = true →
      (newTask body body.assigneeId random).assigneeId = body.assigneeId ∧
      postApiTasks toLowerCase save random db body
        = (save db (newTask body body.assigneeId random)).map
            (fun db' => (newTask body body.assigneeId random, db'))) ∧
    (truthy body.assigneeId = false →
      (∀ e, aiAssignTask toLowerCase db body.title body.priority body.projectId
          = Except.error e →
        postApiTasks toLowerCase save random db body = Except.error e) ∧
      (∀ userId, aiAssignTask toLowerCase db body.title body.priority body.projectId
          = Except.ok userId →
        (newTask body (some userId) random).assigneeId = some userId ∧
        postApiTasks toLowerCase save random db body
          = (save db (newTask body (some userId) random)).map
              (fun db' => (newTask body (some userId) random, db')))) :=
  ⟨fun h => ⟨rfl, postApiTasks_truthy toLowerCase save random db body h⟩,
   fun h => ⟨fun e hai => postApiTasks_falsy_error toLowerCase save random db body h e hai,
     fun userId hai =>
       ⟨rfl, postApiTasks_falsy_ok toLowerCase save random db body h userId hai⟩⟩⟩

/-- On scenario 1 the engine picks `u1`. A request naming `u2` is saved with
`u2`; a request naming nobody is saved with `u1`; and a request naming `u2` is
saved with `u2` even where the engine would throw. -/
theorem postApiTasks_assignee_witness :
    (truthy explicitBody.assigneeId = true ∧ truthy autoBody.assigneeId = false ∧
      aiAssignTask asciiLower scenario1 autoBody.title autoBody.priority autoBody.projectId
        = Except.ok "u1") ∧
    ((newTask explicitBody explicitBody.assigneeId half).assigneeId = explicitBody.assigneeId ∧
      postApiTasks asciiLower saveAppend half scenario1 explicitBody
        = (saveAppend scenario1 (newTask explicitBody explicitBody.assigneeId half)).map
            (fun db' => (newTask explicitBody explicitBody.assigneeId half, db'))) ∧
    ((newTask autoBody (some "u1") half).assigneeId = some "u1" ∧
      postApiTasks asciiLower saveAppend half scenario1 autoBody
        = (saveAppend scenario1 (newTask autoBody (some "u1") half)).map
            (fun db' => (newTask autoBody (some "u1") half, db'))) ∧
    postApiTasks asciiLower saveAppend half unassignedDb explicitBody
      = Except.ok (newTask explicitBody (some "u2") half,
          { unassignedDb with tasks := unassignedDb.tasks ++
              [newTask explicitBody (some "u2") half] }) :=
  ⟨⟨by rfl, by rfl, by rfl⟩,
   (postApiTasks_assignee asciiLower saveAppend half scenario1 explicitBody).1 (by rfl),
   ((postApiTasks_assignee asciiLower saveAppend half scenario1 autoBody).2 (by rfl)).2
     "u1" (by rfl),
   by rfl⟩

/-- C9: every task document the route builds has status "pending",
`completedHours` 0 and an integer `estimatedHours` between 5 and 24, for every
double `random` with `0 ≤ random < 1` drawn by `Math.random()`; this holds of
the document `newTask` builds and so of every document the route saves. -/
theorem newTask_fields (body : TaskBody) (random : Double)
    (hdouble : random.mantissa < 2 ^ 53) (hlt : random.toRat < 1) :
    (∀ assigneeId,
      (newTask body assigneeId random).status = "pending" ∧
      (newTask body assigneeId random).completedHours = 0 ∧
      5 ≤ (newTask body assigneeId random).estimatedHours ∧
      (newTask body assigneeId random).estimatedHours ≤ 24) ∧
    (∀ toLowerCase save db task db',
      postApiTasks toLowerCase save random db body = Except.ok (task, db') →
      task.status = "pending" ∧ task.completedHours = 0 ∧
      5 ≤ task.estimatedHours ∧ task.estimatedHours ≤ 24) := by
  have hb := floor_mul20_bounds random hdouble hlt
  have key : ∀ assigneeId,
      (newTask body assigneeId random).status = "pending" ∧
      (newTask body assigneeId random).completedHours = 0 ∧
      5 ≤ (newTask body assigneeId random).estimatedHours ∧
      (newTask body assigneeId random).estimatedHours ≤ 24 := by
    intro assigneeId
    refine ⟨rfl, rfl, ?_, ?_⟩
    · show 5 ≤ Math.floor random.mul20 + 5
      omega
    · show Math.floor random.mul20 + 5 ≤ 24
      omega
  refine ⟨key, ?_⟩
  intro toLowerCase save db task db' h
  obtain ⟨a, rfl⟩ := postApiTasks_ok_newTask toLowerCase save random db body task db' h
  exact key a

/-- The draws `0.5` and `1 - 2 ^ (-53)` give 15 and 24 estimated hours. -/
theorem newTask_fields_witness :
    (belowOne.mantissa < 2 ^ 53 ∧ belowOne.toRat < 1) ∧
    ((∀ assigneeId,
      (newTask autoBody assigneeId belowOne).status = "pending" ∧
      (newTask autoBody assigneeId belowOne).completedHours = 0 ∧
      5 ≤ (newTask autoBody assigneeId belowOne).estimatedHours ∧
      (newTask autoBody assigneeId belowOne).estimatedHours ≤ 24) ∧
    (∀ toLowerCase save db task db',
      postApiTasks toLowerCase save belowOne db autoBody = Except.ok (task, db') →
      task.status = "pending" ∧ task.completedHours = 0 ∧
      5 ≤ task.estimatedHours ∧ task.estimatedHours ≤ 24)) ∧
    (newTask autoBody (some "u1") half).estimatedHours = 15 ∧
    (newTask autoBody (some "u1") belowOne).estimatedHours = 24 :=
  ⟨⟨by decide, by norm_num [belowOne, Double.toRat]⟩,
   newTask_fields autoBody belowOne (by decide) (by norm_num [belowOne, Double.toRat]),
   by decide, by decide⟩

end ProjectFlow
